import Mathlib

/-!
Shallow embedding of the `sl-departures-api` HTTP proxy (src/main.go) and
verification of its specification claims.

Modelling conventions:
* Go strings are modelled as `List Char` (`GoString`).  The wire data handled
  by this program is ASCII, where one Go byte corresponds to one character.
* Go machine integers (`int`, 64-bit) are modelled as `Int` with explicit
  range checks where the source (or the libraries it calls) performs them.
* `time.Time` values produced by `time.Parse ("2006-01-02T15:04:05")` are UTC
  wall-clock values at second precision; they are modelled by the record
  `CustomTime` below, and instant arithmetic (`Before`, `Sub`) is modelled by
  conversion to Unix seconds via the proleptic Gregorian calendar.
* Fallible operations return `Option`; the possible panic in
  `CustomTime.UnmarshalJSON` (an out-of-range slice) is modelled explicitly by
  the `UnmarshalResult.panics` constructor.
-/

/-- A Go string, as the sequence of its characters. -/
abbrev GoString := List Char

/-- Coerce a Lean string literal to the `GoString` model. -/
def str (s : String) : GoString := s.data

/-- Decimal digit test, as Go's byte-range check `'0' <= c && c <= '9'`. -/
def isDigitChar (c : Char) : Bool := 48 ≤ c.toNat && c.toNat ≤ 57

/-- Numeric value of a decimal digit character. -/
def digitVal (c : Char) : Nat := c.toNat - 48

/-- The decimal digit character for a value below 10. -/
def digitChar (n : Nat) : Char := Char.ofNat (48 + n)

/-- Two-digit zero-padded decimal rendering, as Go's `appendInt(v, 2)` for
values in `0..99` (the only values the program feeds it: month, day, hour,
minute, second of a normalized time). -/
def pad2 (n : Nat) : GoString := [digitChar (n / 10), digitChar (n % 10)]

/-- Four-digit zero-padded decimal rendering, as Go's `appendInt(v, 4)` for
values in `0..9999` (years parsed by the fixed four-digit layout). -/
def pad4 (n : Nat) : GoString :=
  [digitChar (n / 1000), digitChar (n / 100 % 10), digitChar (n / 10 % 10), digitChar (n % 10)]

/-- The wall-clock value carried by the source's `CustomTime` (a `time.Time`
restricted to the second precision the codec's layout can express). -/
structure CustomTime where
  year : Nat
  month : Nat
  day : Nat
  hour : Nat
  minute : Nat
  second : Nat
  deriving Repr, DecidableEq

/-- Gregorian leap-year rule, as Go `time.isLeap`. -/
def isLeapYear (y : Nat) : Bool := y % 4 == 0 && (y % 100 != 0 || y % 400 == 0)

/-- Number of days of month `m` in year `y`, as Go `time.daysIn`. -/
def daysIn (m y : Nat) : Nat :=
  if m == 2 then (if isLeapYear y then 29 else 28)
  else if m == 4 || m == 6 || m == 9 || m == 11 then 30
  else 31

/-- Fixed four-digit number field of `time.Parse` (layout chunk `2006`):
exactly four decimal digits. -/
def getnum4 : GoString → Option (Nat × GoString)
  | c1 :: c2 :: c3 :: c4 :: rest =>
    if isDigitChar c1 && isDigitChar c2 && isDigitChar c3 && isDigitChar c4 then
      some (1000 * digitVal c1 + 100 * digitVal c2 + 10 * digitVal c3 + digitVal c4, rest)
    else none
  | _ => none

/-- Fixed two-digit number field of `time.Parse` (zero-padded layout chunks
`01`, `02`, `04`, `05`): exactly two decimal digits. -/
def getnum2 : GoString → Option (Nat × GoString)
  | c1 :: c2 :: rest =>
    if isDigitChar c1 && isDigitChar c2 then some (10 * digitVal c1 + digitVal c2, rest)
    else none
  | _ => none

/-- Non-fixed number field of `time.Parse` (layout chunk `15`, the 24-hour
hour): one digit, or two when the second character is also a digit. -/
def getnumHour : GoString → Option (Nat × GoString)
  | [] => none
  | c1 :: rest =>
    if isDigitChar c1 then
      match rest with
      | c2 :: rest2 =>
        if isDigitChar c2 then some (10 * digitVal c1 + digitVal c2, rest2)
        else some (digitVal c1, c2 :: rest2)
      | [] => some (digitVal c1, [])
    else none

/-- Literal separator characters of the layout must match exactly. -/
def expectChar (c : Char) : GoString → Option GoString
  | x :: rest => if x == c then some rest else none
  | _ => none

/-- After the seconds field, `time.Parse` accepts an optional fractional
second (a comma or period followed by at least one digit) even though the
layout has none, and then requires the input to be exhausted. -/
def fracSecondOk : GoString → Bool
  | [] => true
  | c :: d :: rest =>
    (c == '.' || c == ',') && isDigitChar d && ((d :: rest).dropWhile isDigitChar).isEmpty
  | _ => false

/-- Behaviour of Go `time.Parse ("2006-01-02T15:04:05", s)`: fixed-width
numeric fields separated by the layout's literals, an optional fractional
second (discarded at the second precision of this model), and the range
checks `time.Parse` performs (hour, minute, second inline; month and day
against `daysIn` after the scan).  Returns `none` exactly when Go returns a
parse error. -/
def goTimeParse (s : GoString) : Option CustomTime :=
  match getnum4 s with
  | none => none
  | some (year, s1) =>
  match expectChar '-' s1 with
  | none => none
  | some s2 =>
  match getnum2 s2 with
  | none => none
  | some (month, s3) =>
  match expectChar '-' s3 with
  | none => none
  | some s4 =>
  match getnum2 s4 with
  | none => none
  | some (day, s5) =>
  match expectChar 'T' s5 with
  | none => none
  | some s6 =>
  match getnumHour s6 with
  | none => none
  | some (hour, s7) =>
  if 24 ≤ hour then none else
  match expectChar ':' s7 with
  | none => none
  | some s8 =>
  match getnum2 s8 with
  | none => none
  | some (minute, s9) =>
  if 60 ≤ minute then none else
  match expectChar ':' s9 with
  | none => none
  | some s10 =>
  match getnum2 s10 with
  | none => none
  | some (second, s11) =>
  if 60 ≤ second then none else
  if fracSecondOk s11 then
    if month < 1 ∨ 12 < month then none else
    if day < 1 ∨ daysIn month year < day then none else
    some ⟨year, month, day, hour, minute, second⟩
  else none

/-- Behaviour of Go `t.Format ("2006-01-02T15:04:05")` on the values this
program formats (parsed times, whose year fits in four digits). -/
def goTimeFormat (t : CustomTime) : GoString :=
  pad4 t.year ++ '-' :: (pad2 t.month ++ '-' :: (pad2 t.day ++
    'T' :: (pad2 t.hour ++ ':' :: (pad2 t.minute ++ ':' :: pad2 t.second))))

/-- Source `CustomTime.MarshalJSON`: `json.Marshal` of the formatted string,
which quotes it (no character of the fixed layout needs escaping). -/
def marshalJSON (t : CustomTime) : GoString := '"' :: (goTimeFormat t ++ ['"'])

/-- Go slice expression `s[1 : len(s)-1]` for a string of length at least 2. -/
def stripEnds (s : GoString) : GoString := (s.drop 1).take (s.length - 2)

/-- Outcome of `CustomTime.UnmarshalJSON`: a decoded value, an error return,
or a runtime panic. -/
inductive UnmarshalResult where
  | panics : UnmarshalResult
  | fails : UnmarshalResult
  | ok : CustomTime → UnmarshalResult
  deriving Repr, DecidableEq

/-- Source `CustomTime.UnmarshalJSON`: it slices `s[1 : len(s)-1]` without a
length guard — on input shorter than 2 bytes the slice bounds are out of
range and the program panics — and otherwise parses the interior with
`time.Parse`, returning the parse error verbatim on failure. -/
def unmarshalJSON (b : GoString) : UnmarshalResult :=
  if b.length < 2 then .panics
  else
    match goTimeParse (stripEnds b) with
    | some t => .ok t
    | none => .fails

/-- Days from 1970-01-01 of a proleptic-Gregorian civil date (Howard
Hinnant's `days_from_civil`); used to model `time.Time` instant arithmetic
for parsed values, which carry no zone offset (UTC). -/
def daysFromCivil (y m d : Int) : Int :=
  let yAdj : Int := if m ≤ 2 then y - 1 else y
  let era : Int := Int.fdiv yAdj 400
  let yoe : Int := yAdj - era * 400
  let mp : Int := Int.emod (m + 9) 12
  let doy : Int := Int.fdiv (153 * mp + 2) 5 + d - 1
  let doe : Int := yoe * 365 + Int.fdiv yoe 4 - Int.fdiv yoe 100 + doy
  era * 146097 + doe - 719468

/-- The instant of a parsed wall-clock value, as Unix seconds. -/
def toUnixSeconds (t : CustomTime) : Int :=
  daysFromCivil (t.year : Int) (t.month : Int) (t.day : Int) * 86400 +
    (t.hour : Int) * 3600 + (t.minute : Int) * 60 + (t.second : Int)

/-- Go `t.Before(u)`: strict comparison of instants. -/
def timeBefore (t u : CustomTime) : Bool := decide (toUnixSeconds t < toUnixSeconds u)

/-- Go `t.Sub(u)` in nanoseconds: the difference of instants, saturated to
the `int64` range of `time.Duration` on overflow. -/
def goSubNs (t u : CustomTime) : Int :=
  let d : Int := (toUnixSeconds t - toUnixSeconds u) * 1000000000
  if d < -9223372036854775808 then -9223372036854775808
  else if 9223372036854775807 < d then 9223372036854775807
  else d

/-- Go `int(d.Minutes())` for a duration of whole seconds: the exact number
of minutes truncated toward zero (`float64` conversion then `int` conversion;
at this precision the float computation is exact enough that the result is
the truncated quotient). -/
def goMinutesInt (ns : Int) : Int := Int.tdiv ns 60000000000

/-- Go `t.Format ("15:04")`: zero-padded hour and minute. -/
def goFormatHM (t : CustomTime) : GoString := pad2 t.hour ++ ':' :: pad2 t.minute

/-- Source struct `Line`. -/
structure Line where
  id : Int
  designation : GoString
  deriving Repr, DecidableEq

/-- Source struct `Departure` (times decoded through the Time Codec). -/
structure Departure where
  destination : GoString
  direction : GoString
  scheduled : CustomTime
  expected : CustomTime
  line : Line
  deriving Repr, DecidableEq

/-- Source struct `Response`, the upstream envelope. -/
structure Response where
  departures : List Departure
  deriving Repr, DecidableEq

/-- A Go slice of departures: `none` is the nil slice (which
`encoding/json` renders as `null`), `some l` a non-nil slice with contents
`l`.  Only contents and nil-ness are observable in this program. -/
abbrev GoSlice := Option (List Departure)

/-- Contents of a slice (`len` works on this). -/
def sliceList : GoSlice → List Departure
  | none => []
  | some l => l

/-- Go `strconv.Atoi`: optional sign, at least one digit, nothing else, and
the value must fit in a 64-bit `int` (otherwise `ErrRange`, which the caller
treats like any error). -/
def goAtoi (s : GoString) : Option Int :=
  let core : GoString := match s with
    | '-' :: rest => rest
    | '+' :: rest => rest
    | _ => s
  let neg : Bool := match s with
    | '-' :: _ => true
    | _ => false
  if core.isEmpty || !(core.all isDigitChar) then none
  else
    let n : Nat := core.foldl (fun acc c => 10 * acc + digitVal c) 0
    if neg then
      if n ≤ 9223372036854775808 then some (-(n : Int)) else none
    else
      if n ≤ 9223372036854775807 then some (n : Int) else none

/-- Source `filterDepartures` as a direct translation of its loop: the two
`continue` conditions (line filter present but not parsing or not matching;
direction filter present and not equal) and otherwise an append. -/
def filterDepartures : List Departure → GoString → GoString → List Departure
  | [], _, _ => []
  | d :: rest, lineID, direction =>
    if !lineID.isEmpty &&
        (match goAtoi lineID with
         | none => true
         | some id => d.line.id != id) then
      filterDepartures rest lineID direction
    else if !direction.isEmpty && d.direction != direction then
      filterDepartures rest lineID direction
    else
      d :: filterDepartures rest lineID direction

/-- State of the `filterDepartures` loop: the input slice it ranges over and
the slice being built (`var filtered []Departure` starts nil).  The input
slice is part of the state so that the absence of writes to it is a theorem
about the model rather than an assumption. -/
structure FilterState where
  departures : List Departure
  filtered : GoSlice
  deriving Repr, DecidableEq

/-- Go `append` on a departures slice: the result is always non-nil. -/
def goAppend (s : GoSlice) (d : Departure) : GoSlice := some (sliceList s ++ [d])

/-- One iteration of the source's filter loop over the current element `d`. -/
def filterStep (lineID direction : GoString) (st : FilterState) (d : Departure) : FilterState :=
  if !lineID.isEmpty &&
      (match goAtoi lineID with
       | none => true
       | some id => d.line.id != id) then st
  else if !direction.isEmpty && d.direction != direction then st
  else { st with filtered := goAppend st.filtered d }

/-- The whole filter loop, threading the state over the input elements. -/
def filterDeparturesRun (departures : List Departure) (lineID direction : GoString) : FilterState :=
  departures.foldl (filterStep lineID direction) ⟨departures, none⟩

/-- The slice `filterDepartures` returns: nil exactly when nothing was
appended. -/
def filterDeparturesSlice (departures : List Departure) (lineID direction : GoString) : GoSlice :=
  match filterDepartures departures lineID direction with
  | [] => none
  | l => some l

/-- Comparison closure passed to `sort.Slice`:
`filteredDepartures[i].Expected.Before(filteredDepartures[j].Expected.Time)`. -/
def departureLess (d e : Departure) : Bool := timeBefore d.expected e.expected

/-- A list is sorted for `sort.Slice`'s contract when no later element is
`less` than an earlier one. -/
def sortedBy (less : Departure → Departure → Bool) (l : List Departure) : Prop :=
  l.Pairwise (fun a b => less b a = false)

/-- Documented contract of Go `sort.Slice` (which this repository does not
pin to any particular Go release/algorithm): the slice is permuted in place
into an order sorted with respect to `less`; the sort is NOT guaranteed to
be stable. -/
def sortSliceRel (less : Departure → Departure → Bool) (l l' : List Departure) : Prop :=
  l'.Perm l ∧ sortedBy less l'

/-- The request data the handlers read: the three query parameters, with the
empty string for an absent parameter (exactly what `r.URL.Query().Get`
yields). -/
structure Request where
  siteId : GoString
  lineId : GoString
  direction : GoString
  deriving Repr, DecidableEq

/-- Outcome of the upstream fetch (`fetchDepartures`), which is network I/O
and therefore an input of the model; an error carries the already-wrapped
message `fetchDepartures` builds. -/
inductive FetchResult where
  | ok : Response → FetchResult
  | err : GoString → FetchResult
  deriving Repr, DecidableEq

/-- Return value of source `getDepartures`. -/
inductive GetDepResult where
  | err : GoString → GetDepResult
  | ok : GoSlice → GoString → GetDepResult
  deriving Repr, DecidableEq

def msgSiteIdRequired : GoString := str ("siteId query parameter is required")

/-- Source `getDepartures`: reject a missing `siteId`, propagate fetch
errors, otherwise filter and sort (in place, via `sort.Slice`) and return the
slice with the site identifier.  Relational because `sort.Slice` is
modelled by its contract. -/
def getDeparturesRel (fetch : FetchResult) (req : Request) (res : GetDepResult) : Prop :=
  if req.siteId = [] then res = .err msgSiteIdRequired
  else
    match fetch with
    | .err e => res = .err e
    | .ok resp =>
      ∃ l', sortSliceRel departureLess (filterDepartures resp.departures req.lineId req.direction) l' ∧
        res = .ok (match l' with | [] => none | l' => some l') req.siteId

/-- Go `fmt` `%d` rendering of an `int`. -/
def goIntToStr (i : Int) : GoString :=
  if i < 0 then '-' :: Nat.toDigits 10 i.natAbs else Nat.toDigits 10 i.natAbs

/-- Newline written by `Fprintf`/`Fprintln`/`http.Error`/`Encoder.Encode`. -/
def nl : GoString := ['\n']

/-- One block of `prettyPrintDepartures`' per-departure output: the four
fixed lines, the conditional delay line (printed when the `15:04` renderings
differ, with `int(delay.Minutes())` minutes), and the divider. -/
def departureBlock (d : Departure) : GoString :=
  let scheduledTime := goFormatHM d.scheduled
  let expectedTime := goFormatHM d.expected
  str ("Line ") ++ d.line.designation ++ str (" (ID: ") ++ goIntToStr d.line.id ++
    str (") to ") ++ d.destination ++ nl ++
  str ("  Direction: ") ++ d.direction ++ nl ++
  str ("  Scheduled: ") ++ scheduledTime ++ nl ++
  str ("  Expected:  ") ++ expectedTime ++ nl ++
  (if scheduledTime ≠ expectedTime then
    str ("  Delay:     ") ++ goIntToStr (goMinutesInt (goSubNs d.expected d.scheduled)) ++
      str (" minutes") ++ nl
   else []) ++
  str ("--------------------") ++ nl

/-- Source `prettyPrintDepartures`: the no-results message naming the site
identifier, or the header, divider and one block per departure. -/
def prettyPrintDepartures (departures : List Departure) (siteID : GoString) : GoString :=
  if departures.length = 0 then
    str ("No departures found matching the criteria for site ID: ") ++ siteID ++ nl
  else
    str ("Upcoming Departures for site ID ") ++ siteID ++
      str (" (sorted by expected departure time):") ++ nl ++
    str ("--------------------") ++ nl ++
    (departures.map departureBlock).flatten

/-- Opening curly bracket character (written by code point to keep brackets
out of string literals). -/
def lbrace : Char := Char.ofNat 123

/-- Closing curly bracket character. -/
def rbrace : Char := Char.ofNat 125

/-- Lower-case hexadecimal digit, as used by `encoding/json` escapes. -/
def hexDigit (n : Nat) : Char := if n < 10 then digitChar n else Char.ofNat (87 + n)

/-- Escaping of one character in a JSON string by `encoding/json` (HTML
escaping on, as with `json.NewEncoder`'s default). -/
def jsonEscapeChar (c : Char) : GoString :=
  if c == '"' then ['\\', '"']
  else if c == '\\' then ['\\', '\\']
  else if c == '\n' then ['\\', 'n']
  else if c == '\r' then ['\\', 'r']
  else if c == '\t' then ['\\', 't']
  else if c.toNat < 32 || c == '<' || c == '>' || c == '&' then
    ['\\', 'u', '0', '0', hexDigit (c.toNat / 16), hexDigit (c.toNat % 16)]
  else if c.toNat == 8232 || c.toNat == 8233 then
    ['\\', 'u', '2', '0', '2', hexDigit (c.toNat % 16)]
  else [c]

/-- JSON rendering of a string value. -/
def jsonString (s : GoString) : GoString :=
  '"' :: (s.flatMap jsonEscapeChar) ++ ['"']

/-- JSON rendering of the `Line` struct, in field order with its tags. -/
def encodeLine (l : Line) : GoString :=
  [lbrace] ++ jsonString (str ("id")) ++ [':'] ++ goIntToStr l.id ++
  [','] ++ jsonString (str ("designation")) ++ [':'] ++ jsonString l.designation ++
  [rbrace]

/-- JSON rendering of one `Departure`, times re-encoded through
`CustomTime.MarshalJSON`. -/
def encodeDeparture (d : Departure) : GoString :=
  [lbrace] ++ jsonString (str ("destination")) ++ [':'] ++ jsonString d.destination ++
  [','] ++ jsonString (str ("direction")) ++ [':'] ++ jsonString d.direction ++
  [','] ++ jsonString (str ("scheduled")) ++ [':'] ++ marshalJSON d.scheduled ++
  [','] ++ jsonString (str ("expected")) ++ [':'] ++ marshalJSON d.expected ++
  [','] ++ jsonString (str ("line")) ++ [':'] ++ encodeLine d.line ++
  [rbrace]

/-- Comma-separated concatenation of already-encoded elements. -/
def commaSep : List GoString → GoString
  | [] => []
  | [s] => s
  | s :: rest => s ++ ',' :: commaSep rest

/-- `encoding/json` rendering of a departures slice: `null` for the nil
slice, otherwise a JSON array. -/
def jsonEncodeSlice (s : GoSlice) : GoString :=
  match s with
  | none => str ("null")
  | some l => '[' :: commaSep (l.map encodeDeparture) ++ [']']

/-- An HTTP response as the handlers produce it: status code and body. -/
structure HttpResponse where
  status : Nat
  body : GoString
  deriving Repr, DecidableEq

/-- Go `http.Error(w, msg, code)`: sets the status and writes `msg`
followed by a newline. -/
def httpError (msg : GoString) (code : Nat) : HttpResponse := ⟨code, msg ++ nl⟩

def msgFetchPrefix : GoString := str ("Error fetching departure data: ")

/-- Source `handleDepartures` (the text handler): any pipeline error becomes
a 500 with the prefixed message; success renders the text report with an
implicit 200. -/
def handleDeparturesRel (fetch : FetchResult) (req : Request) (resp : HttpResponse) : Prop :=
  ∃ res, getDeparturesRel fetch req res ∧
    match res with
    | .err e => resp = httpError (msgFetchPrefix ++ e) 500
    | .ok deps siteID => resp = ⟨200, prettyPrintDepartures (sliceList deps) siteID⟩

/-- Source `handleDeparturesJSON`: same pipeline and error path; on success
a nil result slice is first replaced by an empty non-nil one, and
`Encoder.Encode` appends a newline to the JSON. -/
def handleDeparturesJSONRel (fetch : FetchResult) (req : Request) (resp : HttpResponse) : Prop :=
  ∃ res, getDeparturesRel fetch req res ∧
    match res with
    | .err e => resp = httpError (msgFetchPrefix ++ e) 500
    | .ok deps _ =>
      resp = ⟨200, jsonEncodeSlice (if (sliceList deps).length = 0 then some [] else deps) ++ nl⟩

/-! Claim C2: short inputs to the Time Codec decoder -/

/-- C2 (code bug): the decoder does NOT fail gracefully on inputs shorter
than 2 characters — `s[1 : len(s)-1]` has out-of-range bounds there, so the
code panics instead of returning an error, for every such input. -/
theorem unmarshalJSON_short_input_panics (b : GoString) (h : b.length < 2) :
    unmarshalJSON b = .panics := by
  unfold unmarshalJSON
  rw [if_pos h]

/-- Evaluation of the decoder at the two short inputs named by the spec. -/
theorem unmarshalJSON_short_input_panics_witness :
    ([] : GoString).length < 2 ∧ unmarshalJSON [] = .panics ∧
      (['"'] : GoString).length < 2 ∧ unmarshalJSON ['"'] = .panics :=
  ⟨by decide, unmarshalJSON_short_input_panics [] (by decide), by decide,
    unmarshalJSON_short_input_panics ['"'] (by decide)⟩

/-! Claim C9: the decoder strips delimiters without checking them -/

/-- C9: for any input of length at least 2 whose interior parses in the
fixed layout, decoding succeeds — the stripped first and last characters are
never inspected, so mis-delimited wire values decode successfully. -/
theorem unmarshalJSON_strips_blindly (b : GoString) (t : CustomTime)
    (hlen : 2 ≤ b.length) (hp : goTimeParse (stripEnds b) = some t) :
    unmarshalJSON b = .ok t := by
  unfold unmarshalJSON
  rw [if_neg (by omega), hp]

/-- The mis-delimited example value decodes successfully. -/
theorem unmarshalJSON_strips_blindly_witness :
    2 ≤ (str ("x2024-01-15T08:30:00y")).length ∧
      goTimeParse (stripEnds (str ("x2024-01-15T08:30:00y"))) = some ⟨2024, 1, 15, 8, 30, 0⟩ ∧
      unmarshalJSON (str ("x2024-01-15T08:30:00y")) = .ok ⟨2024, 1, 15, 8, 30, 0⟩ :=
  ⟨by decide, by decide, unmarshalJSON_strips_blindly _ _ (by decide) (by decide)⟩

/-! Claim C10: the filter output is a subsequence of its input -/

/-- C10: every record `filterDepartures` returns occurs in its input, at
most once per input record, and in the input's relative order — the output
is a sublist of the input. -/
theorem filterDepartures_sublist (l : List Departure) (lineID direction : GoString) :
    List.Sublist (filterDepartures l lineID direction) l := by
  induction l with
  | nil => exact List.Sublist.refl _
  | cons d rest ih =>
    unfold filterDepartures
    split
    · exact List.Sublist.cons d ih
    · split
      · exact List.Sublist.cons d ih
      · exact List.Sublist.cons₂ d ih

/-! Claim C4: exact characterization of the filter -/

/-- The keep-condition claim C4 states: the line filter is absent or parses
to the record's line identifier, and the direction filter is absent or
equals the record's direction (case-sensitively). -/
def keepSpec (lineID direction : GoString) (d : Departure) : Bool :=
  (lineID.isEmpty ||
    (match goAtoi lineID with
     | some id => d.line.id == id
     | none => false)) &&
  (direction.isEmpty || d.direction == direction)

theorem filterDepartures_cons (d : Departure) (rest : List Departure)
    (lineID direction : GoString) :
    filterDepartures (d :: rest) lineID direction =
      if keepSpec lineID direction d then d :: filterDepartures rest lineID direction
      else filterDepartures rest lineID direction := by
  simp only [filterDepartures, keepSpec]
  cases lineID with
  | nil =>
    cases direction with
    | nil => simp
    | cons c cs => by_cases hdir : d.direction = c :: cs <;> simp [hdir, bne]
  | cons b bs =>
    rcases Option.eq_none_or_eq_some (goAtoi (b :: bs)) with hA | ⟨id, hA⟩
    · simp [hA, bne]
    · by_cases hid : d.line.id = id
      · cases direction with
        | nil => simp [hA, hid, bne]
        | cons c cs => by_cases hdir : d.direction = c :: cs <;> simp [hA, hid, hdir, bne]
      · simp [hA, hid, bne]

/-- C4: `filterDepartures` keeps exactly the records satisfying the claimed
keep-condition; a non-empty, non-parsing line filter excludes everything;
absent filters impose no restriction. -/
theorem filterDepartures_spec (l : List Departure) (lineID direction : GoString) :
    filterDepartures l lineID direction = l.filter (keepSpec lineID direction) ∧
    (lineID ≠ [] → goAtoi lineID = none → filterDepartures l lineID direction = []) ∧
    filterDepartures l [] [] = l := by
  refine ⟨?_, ?_, ?_⟩
  · induction l with
    | nil => rfl
    | cons d rest ih => rw [filterDepartures_cons, List.filter_cons, ih]
  · intro hne hnone
    induction l with
    | nil => rfl
    | cons d rest ih =>
      rw [filterDepartures_cons, ih]
      have : keepSpec lineID direction d = false := by
        unfold keepSpec
        rw [hnone]
        simp [List.isEmpty_iff, hne]
      simp [this]
  · induction l with
    | nil => rfl
    | cons d rest ih =>
      rw [filterDepartures_cons, ih]
      simp [keepSpec]

def sampleTime : CustomTime := ⟨2024, 1, 15, 8, 30, 0⟩

def sampleDeparture : Departure :=
  ⟨str ("Downtown"), str ("North"), sampleTime, sampleTime, ⟨1, str ("1")⟩⟩

/-- Concrete instance of C4: the non-numeric filter `abc` excludes every
record, here on a one-record list. -/
theorem filterDepartures_spec_witness :
    (str ("abc") ≠ ([] : GoString)) ∧ goAtoi (str ("abc")) = none ∧
      filterDepartures [sampleDeparture] (str ("abc")) [] = [] :=
  ⟨by decide, by decide,
    (filterDepartures_spec [sampleDeparture] (str ("abc")) []).2.1 (by decide) (by decide)⟩

/-! Claim C8: the filter does not mutate its input -/

theorem filterStep_departures (lineID direction : GoString) (st : FilterState) (d : Departure) :
    (filterStep lineID direction st d).departures = st.departures := by
  unfold filterStep
  split
  · rfl
  · split <;> rfl

theorem foldl_filterStep_departures (lineID direction : GoString) :
    ∀ (xs : List Departure) (st : FilterState),
      (xs.foldl (filterStep lineID direction) st).departures = st.departures := by
  intro xs
  induction xs with
  | nil => intro st; rfl
  | cons d rest ih =>
    intro st
    rw [List.foldl_cons, ih, filterStep_departures]

theorem filterStep_eq (lineID direction : GoString) (st : FilterState) (d : Departure) :
    filterStep lineID direction st d =
      if keepSpec lineID direction d then { st with filtered := goAppend st.filtered d }
      else st := by
  simp only [filterStep, keepSpec]
  cases lineID with
  | nil =>
    cases direction with
    | nil => simp
    | cons c cs => by_cases hdir : d.direction = c :: cs <;> simp [hdir, bne]
  | cons b bs =>
    rcases Option.eq_none_or_eq_some (goAtoi (b :: bs)) with hA | ⟨id, hA⟩
    · simp [hA, bne]
    · by_cases hid : d.line.id = id
      · cases direction with
        | nil => simp [hA, hid, bne]
        | cons c cs => by_cases hdir : d.direction = c :: cs <;> simp [hA, hid, hdir, bne]
      · simp [hA, hid, bne]

theorem foldl_filterStep_filtered (lineID direction : GoString) :
    ∀ (xs : List Departure) (st : FilterState),
      (xs.foldl (filterStep lineID direction) st).filtered =
        (if (sliceList st.filtered ++ filterDepartures xs lineID direction).isEmpty then
          st.filtered else some (sliceList st.filtered ++ filterDepartures xs lineID direction)) := by
  intro xs
  induction xs with
  | nil =>
    intro st
    cases h : st.filtered <;> simp [filterDepartures, sliceList, h]
  | cons d rest ih =>
    intro st
    rw [List.foldl_cons, filterStep_eq, filterDepartures_cons]
    by_cases hk : keepSpec lineID direction d = true
    · rw [if_pos hk, if_pos hk, ih]
      simp [goAppend, sliceList]
    · rw [if_neg hk, if_neg hk, ih]

/-- C8: running the filter loop with the input slice threaded through the
state leaves the input exactly as it was, while the `filtered` slice it
builds is a fresh sequence holding the filter's result (nil when nothing
survived). -/
theorem filterDepartures_no_mutation (l : List Departure) (lineID direction : GoString) :
    (filterDeparturesRun l lineID direction).departures = l ∧
    sliceList (filterDeparturesRun l lineID direction).filtered =
      filterDepartures l lineID direction ∧
    (filterDeparturesRun l lineID direction).filtered =
      filterDeparturesSlice l lineID direction := by
  unfold filterDeparturesRun filterDeparturesSlice
  refine ⟨foldl_filterStep_departures lineID direction l _, ?_, ?_⟩ <;>
    rw [foldl_filterStep_filtered] <;>
    cases h : filterDepartures l lineID direction <;>
    simp [sliceList]

/-! Claim C5: response to a missing siteId -/

def reqNoSite : Request := ⟨[], [], []⟩

def respMissingSite : HttpResponse := ⟨500, msgFetchPrefix ++ msgSiteIdRequired ++ nl⟩

/-- Counterexample to C5 as stated: the text handler's response to a request
without `siteId` has status 500 but its body is NOT the bare string
`siteId query parameter is required` — the handler prefixes every pipeline
error with `Error fetching departure data: ` (and `http.Error` appends a
newline). -/
theorem missing_siteId_counterexample :
    handleDeparturesRel (.ok ⟨[]⟩) reqNoSite respMissingSite ∧
      respMissingSite.status = 500 ∧
      respMissingSite.body ≠ msgSiteIdRequired ∧
      ¬ (∀ fetch req resp, req.siteId = [] → handleDeparturesRel fetch req resp →
          resp.body = msgSiteIdRequired) := by
  have hrel : handleDeparturesRel (.ok ⟨[]⟩) reqNoSite respMissingSite := by
    refine ⟨.err msgSiteIdRequired, ?_, ?_⟩
    · simp [getDeparturesRel, reqNoSite]
    · simp [httpError, respMissingSite]
  refine ⟨hrel, rfl, by decide, fun hclaim => ?_⟩
  have := hclaim (.ok ⟨[]⟩) reqNoSite respMissingSite rfl hrel
  revert this
  decide

/-- C5 as amended: on a missing `siteId` both handlers answer 500 with body
`Error fetching departure data: siteId query parameter is required` plus a
newline. -/
theorem missing_siteId_response :
    (∀ fetch req resp, req.siteId = [] → handleDeparturesRel fetch req resp →
      resp = ⟨500, msgFetchPrefix ++ msgSiteIdRequired ++ nl⟩) ∧
    (∀ fetch req resp, req.siteId = [] → handleDeparturesJSONRel fetch req resp →
      resp = ⟨500, msgFetchPrefix ++ msgSiteIdRequired ++ nl⟩) := by
  constructor <;>
  · intro fetch req resp hs h
    obtain ⟨res, hres, hmatch⟩ := h
    unfold getDeparturesRel at hres
    rw [if_pos hs] at hres
    subst hres
    simpa [httpError] using hmatch

/-- Concrete instance of the amended C5 for both endpoints. -/
theorem missing_siteId_response_witness :
    respMissingSite = ⟨500, msgFetchPrefix ++ msgSiteIdRequired ++ nl⟩ ∧
      respMissingSite = ⟨500, msgFetchPrefix ++ msgSiteIdRequired ++ nl⟩ := by
  have hrel : handleDeparturesRel (.ok ⟨[]⟩) reqNoSite respMissingSite := by
    refine ⟨.err msgSiteIdRequired, ?_, ?_⟩
    · simp [getDeparturesRel, reqNoSite]
    · simp [httpError, respMissingSite]
  have hrelJ : handleDeparturesJSONRel (.ok ⟨[]⟩) reqNoSite respMissingSite := by
    refine ⟨.err msgSiteIdRequired, ?_, ?_⟩
    · simp [getDeparturesRel, reqNoSite]
    · simp [httpError, respMissingSite]
  exact ⟨missing_siteId_response.1 (.ok ⟨[]⟩) reqNoSite respMissingSite rfl hrel,
    missing_siteId_response.2 (.ok ⟨[]⟩) reqNoSite respMissingSite rfl hrelJ⟩

/-! Claim C7: rendering of an empty filtered result -/

/-- C7: when no record survives filtering, the JSON handler's body is the
literal empty array (never `null`, thanks to the nil-slice guard), and the
text handler renders the no-results message, which names the site
identifier. -/
theorem empty_result_rendering (fetch : FetchResult) (req : Request) (r : Response)
    (hs : req.siteId ≠ []) (hf : fetch = .ok r)
    (hempty : filterDepartures r.departures req.lineId req.direction = []) :
    (∀ resp, handleDeparturesJSONRel fetch req resp →
      resp = ⟨200, str ("[]") ++ nl⟩ ∧ resp.body ≠ str ("null") ++ nl) ∧
    (∀ resp, handleDeparturesRel fetch req resp →
      resp = ⟨200, str ("No departures found matching the criteria for site ID: ") ++
        req.siteId ++ nl⟩ ∧
      ∃ pre post, resp.body = pre ++ req.siteId ++ post) := by
  subst hf
  have hres : ∀ res, getDeparturesRel (.ok r) req res → res = .ok none req.siteId := by
    intro res hrel
    unfold getDeparturesRel at hrel
    rw [if_neg hs] at hrel
    obtain ⟨l', ⟨hperm, _⟩, hr⟩ := hrel
    rw [hempty] at hperm
    have : l' = [] := List.perm_nil.mp hperm
    subst this
    exact hr
  constructor
  · intro resp hrel
    obtain ⟨res, hrel, hmatch⟩ := hrel
    rw [hres res hrel] at hmatch
    simp only at hmatch
    constructor
    · rw [hmatch]
      simp [sliceList, jsonEncodeSlice, commaSep]
      rfl
    · rw [hmatch]
      decide
  · intro resp hrel
    obtain ⟨res, hrel, hmatch⟩ := hrel
    rw [hres res hrel] at hmatch
    simp only at hmatch
    constructor
    · rw [hmatch]
      simp [sliceList, prettyPrintDepartures]
    · rw [hmatch]
      exact ⟨str ("No departures found matching the criteria for site ID: "), nl, by
        simp [sliceList, prettyPrintDepartures]⟩

/-- Concrete instance of C7 for the JSON endpoint: the empty filtered result
is rendered as the two-character array `[]` (plus the encoder's newline), not
as `null`. -/
theorem empty_result_rendering_witness :
    ((⟨200, str ("[]") ++ nl⟩ : HttpResponse) = ⟨200, str ("[]") ++ nl⟩ ∧
      (⟨200, str ("[]") ++ nl⟩ : HttpResponse).body ≠ str ("null") ++ nl) := by
  have hrel : handleDeparturesJSONRel (.ok ⟨[]⟩) ⟨str ("9001"), [], []⟩ ⟨200, str ("[]") ++ nl⟩ := by
    refine ⟨.ok none (str ("9001")), ?_, ?_⟩
    · unfold getDeparturesRel
      rw [if_neg (by decide)]
      exact ⟨[], ⟨by decide, List.Pairwise.nil⟩, rfl⟩
    · simp [sliceList, jsonEncodeSlice, commaSep]
      rfl
  exact (empty_result_rendering (.ok ⟨[]⟩) ⟨str ("9001"), [], []⟩ ⟨[]⟩ (by decide) rfl
    (by decide)).1 ⟨200, str ("[]") ++ nl⟩ hrel

/-! Claim C3: sorting and (claimed) stability -/

/-- Stability of the returned order with respect to the filter's order: for
every expected-time key, the records carrying that key appear in the same
relative order as the filter step produced them. -/
def tieStable (l l' : List Departure) : Prop :=
  ∀ k : CustomTime, l'.filter (fun d => d.expected == k) = l.filter (fun d => d.expected == k)

def tieTime : CustomTime := ⟨2024, 1, 15, 9, 5, 0⟩

def depTieA : Departure := ⟨str ("Downtown"), str ("North"), tieTime, tieTime, ⟨1, str ("1")⟩⟩

def depTieB : Departure := ⟨str ("Uptown"), str ("South"), tieTime, tieTime, ⟨2, str ("2")⟩⟩

def reqTie : Request := ⟨str ("9001"), [], []⟩

/-- Counterexample to C3 as stated: `sort.Slice` promises only a sorted
permutation, never stability, so `getDepartures` may answer with the two
equal-expected-time records swapped relative to the filter output — an
outcome its contract admits but the claim forbids. -/
theorem sort_stability_counterexample :
    getDeparturesRel (.ok ⟨[depTieA, depTieB]⟩) reqTie
      (.ok (some [depTieB, depTieA]) (str ("9001"))) ∧
    filterDepartures [depTieA, depTieB] reqTie.lineId reqTie.direction = [depTieA, depTieB] ∧
    ¬ tieStable [depTieA, depTieB] [depTieB, depTieA] ∧
    ¬ (∀ (res : GoSlice) (siteID : GoString),
        getDeparturesRel (.ok ⟨[depTieA, depTieB]⟩) reqTie (.ok res siteID) →
        tieStable (filterDepartures [depTieA, depTieB] reqTie.lineId reqTie.direction)
          (sliceList res)) := by
  have hrel : getDeparturesRel (.ok ⟨[depTieA, depTieB]⟩) reqTie
      (.ok (some [depTieB, depTieA]) (str ("9001"))) := by
    unfold getDeparturesRel
    rw [if_neg (by decide)]
    refine ⟨[depTieB, depTieA], ⟨?_, ?_⟩, rfl⟩
    · decide
    · unfold sortedBy
      refine List.Pairwise.cons ?_ (List.Pairwise.cons (by simp) List.Pairwise.nil)
      intro b hb
      rcases List.mem_singleton.mp hb with rfl
      decide
  have hfilter : filterDepartures [depTieA, depTieB] reqTie.lineId reqTie.direction =
      [depTieA, depTieB] := by decide
  have hnstable : ¬ tieStable [depTieA, depTieB] [depTieB, depTieA] := by
    intro h
    have := h tieTime
    revert this
    decide
  refine ⟨hrel, hfilter, hnstable, fun hclaim => ?_⟩
  have := hclaim (some [depTieB, depTieA]) (str ("9001")) hrel
  rw [hfilter] at this
  exact hnstable this

/-- C3 as amended: the list `getDepartures` returns is a permutation of the
filter output, sorted ascending by expected time (no later record's expected
time is before an earlier record's); `sort.Slice` does not guarantee
stability, so records with equal expected times need not keep the filter
step's relative order. -/
theorem getDepartures_sorted_perm (fetch : FetchResult) (req : Request) (r : Response)
    (deps : GoSlice) (siteID : GoString)
    (hf : fetch = .ok r) (h : getDeparturesRel fetch req (.ok deps siteID)) :
    sortedBy departureLess (sliceList deps) ∧
    (sliceList deps).Perm (filterDepartures r.departures req.lineId req.direction) ∧
    siteID = req.siteId := by
  subst hf
  unfold getDeparturesRel at h
  by_cases hs : req.siteId = []
  · rw [if_pos hs] at h
    exact absurd h (by simp)
  · rw [if_neg hs] at h
    obtain ⟨l', ⟨hperm, hsort⟩, hr⟩ := h
    injection hr with hd hsite
    subst hsite
    have hlist : sliceList deps = l' := by
      rw [hd]
      cases l' <;> rfl
    rw [hlist]
    exact ⟨hsort, hperm, rfl⟩

/-- Concrete instance of the amended C3. -/
theorem getDepartures_sorted_perm_witness :
    sortedBy departureLess (sliceList (some [depTieA])) ∧
      (sliceList (some [depTieA])).Perm
        (filterDepartures [depTieA] reqTie.lineId reqTie.direction) ∧
      str ("9001") = reqTie.siteId := by
  have hrel : getDeparturesRel (.ok ⟨[depTieA]⟩) reqTie (.ok (some [depTieA]) (str ("9001"))) := by
    unfold getDeparturesRel
    rw [if_neg (by decide)]
    exact ⟨[depTieA], ⟨by decide, List.Pairwise.cons (by simp) List.Pairwise.nil⟩, rfl⟩
  exact getDepartures_sorted_perm (.ok ⟨[depTieA]⟩) reqTie ⟨[depTieA]⟩ (some [depTieA])
    (str ("9001")) rfl hrel

/-! Claim C6: the delay line of the text report -/

/-- Per-departure block with the delay figure as claim C6 states it: the
FLOOR of the duration (expected minus scheduled) in whole minutes. -/
def departureBlockFloorSpec (d : Departure) : GoString :=
  let scheduledTime := goFormatHM d.scheduled
  let expectedTime := goFormatHM d.expected
  str ("Line ") ++ d.line.designation ++ str (" (ID: ") ++ goIntToStr d.line.id ++
    str (") to ") ++ d.destination ++ nl ++
  str ("  Direction: ") ++ d.direction ++ nl ++
  str ("  Scheduled: ") ++ scheduledTime ++ nl ++
  str ("  Expected:  ") ++ expectedTime ++ nl ++
  (if scheduledTime ≠ expectedTime then
    str ("  Delay:     ") ++
      goIntToStr (Int.fdiv (goSubNs d.expected d.scheduled) 60000000000) ++
      str (" minutes") ++ nl
   else []) ++
  str ("--------------------") ++ nl

/-- Per-departure block with the delay figure as the amended claim states
it: the duration in whole minutes truncated TOWARD ZERO (its sign times the
integer part of its magnitude in minutes). -/
def departureBlockTruncSpec (d : Departure) : GoString :=
  let scheduledTime := goFormatHM d.scheduled
  let expectedTime := goFormatHM d.expected
  str ("Line ") ++ d.line.designation ++ str (" (ID: ") ++ goIntToStr d.line.id ++
    str (") to ") ++ d.destination ++ nl ++
  str ("  Direction: ") ++ d.direction ++ nl ++
  str ("  Scheduled: ") ++ scheduledTime ++ nl ++
  str ("  Expected:  ") ++ expectedTime ++ nl ++
  (if scheduledTime ≠ expectedTime then
    str ("  Delay:     ") ++
      goIntToStr (Int.sign (goSubNs d.expected d.scheduled) *
        (((goSubNs d.expected d.scheduled).natAbs / 60000000000 : Nat) : Int)) ++
      str (" minutes") ++ nl
   else []) ++
  str ("--------------------") ++ nl

def depEarly : Departure :=
  ⟨str ("Downtown"), str ("North"), ⟨2024, 1, 15, 8, 30, 0⟩, ⟨2024, 1, 15, 8, 28, 30⟩,
    ⟨1, str ("1")⟩⟩

/-- Counterexample to C6 as stated: a departure expected 90 seconds before
schedule prints `Delay: -1 minutes` (truncation toward zero), while the
floor of the duration in minutes is `-2`. -/
theorem delay_floor_counterexample :
    departureBlock depEarly ≠ departureBlockFloorSpec depEarly ∧
      goMinutesInt (goSubNs depEarly.expected depEarly.scheduled) = -1 ∧
      Int.fdiv (goSubNs depEarly.expected depEarly.scheduled) 60000000000 = -2 :=
  ⟨by decide, by decide, by decide⟩

theorem goMinutesInt_eq_trunc (ns : Int) :
    goMinutesInt ns = Int.sign ns * ((ns.natAbs / 60000000000 : Nat) : Int) := by
  unfold goMinutesInt
  rcases ns with m | m
  · cases m with
    | zero => decide
    | succ p =>
      show Int.ofNat ((p + 1) / 60000000000) = 1 * Int.ofNat ((p + 1) / 60000000000)
      exact (one_mul _).symm
  · show -Int.ofNat ((m + 1) / 60000000000) = -1 * Int.ofNat ((m + 1) / 60000000000)
    exact (neg_one_mul _).symm

/-- C6 as amended: the delay line is printed exactly when the two `15:04`
renderings differ, and the printed figure is the duration in whole minutes
truncated toward zero (so a negative delay of -1.5 minutes prints as -1, not
the floor -2); negative values are preserved, not clamped. -/
theorem delay_line_truncated (d : Departure) :
    departureBlock d = departureBlockTruncSpec d := by
  unfold departureBlock departureBlockTruncSpec
  rw [goMinutesInt_eq_trunc]

/-! Claim C1: round trip of the Time Codec -/

/-- Claim C1's "timestamp string in the fixed pattern `YYYY-MM-DDTHH:MM:SS`"
with every field in the valid range: nineteen characters with digits and the
layout's separators in their positions, month 1-12, day valid for the month
and year, hour below 24, minute and second below 60. -/
def isTimestampPattern (s : GoString) : Prop :=
  ∃ y1 y2 y3 y4 o1 o2 a1 a2 h1 h2 i1 i2 e1 e2 : Char,
    s = [y1, y2, y3, y4, '-', o1, o2, '-', a1, a2, 'T', h1, h2, ':', i1, i2, ':', e1, e2] ∧
    isDigitChar y1 = true ∧ isDigitChar y2 = true ∧
    isDigitChar y3 = true ∧ isDigitChar y4 = true ∧
    isDigitChar o1 = true ∧ isDigitChar o2 = true ∧
    isDigitChar a1 = true ∧ isDigitChar a2 = true ∧
    isDigitChar h1 = true ∧ isDigitChar h2 = true ∧
    isDigitChar i1 = true ∧ isDigitChar i2 = true ∧
    isDigitChar e1 = true ∧ isDigitChar e2 = true ∧
    1 ≤ 10 * digitVal o1 + digitVal o2 ∧ 10 * digitVal o1 + digitVal o2 ≤ 12 ∧
    1 ≤ 10 * digitVal a1 + digitVal a2 ∧
    10 * digitVal a1 + digitVal a2 ≤
      daysIn (10 * digitVal o1 + digitVal o2)
        (1000 * digitVal y1 + 100 * digitVal y2 + 10 * digitVal y3 + digitVal y4) ∧
    10 * digitVal h1 + digitVal h2 ≤ 23 ∧
    10 * digitVal i1 + digitVal i2 ≤ 59 ∧
    10 * digitVal e1 + digitVal e2 ≤ 59

theorem digitVal_lt {c : Char} (h : isDigitChar c = true) : digitVal c < 10 := by
  have hb : 48 ≤ c.toNat ∧ c.toNat ≤ 57 := by simpa [isDigitChar] using h
  unfold digitVal
  omega

theorem digitChar_digitVal {c : Char} (h : isDigitChar c = true) : digitChar (digitVal c) = c := by
  have hb : 48 ≤ c.toNat ∧ c.toNat ≤ 57 := by simpa [isDigitChar] using h
  unfold digitChar digitVal
  have he : 48 + (c.toNat - 48) = c.toNat := by omega
  rw [he, Char.ofNat_toNat]

theorem pad2_digits {c1 c2 : Char} (h1 : isDigitChar c1 = true) (h2 : isDigitChar c2 = true) :
    pad2 (10 * digitVal c1 + digitVal c2) = [c1, c2] := by
  have b1 := digitVal_lt h1
  have b2 := digitVal_lt h2
  unfold pad2
  have e1 : (10 * digitVal c1 + digitVal c2) / 10 = digitVal c1 := by omega
  have e2 : (10 * digitVal c1 + digitVal c2) % 10 = digitVal c2 := by omega
  rw [e1, e2, digitChar_digitVal h1, digitChar_digitVal h2]

theorem pad4_digits {c1 c2 c3 c4 : Char} (h1 : isDigitChar c1 = true)
    (h2 : isDigitChar c2 = true) (h3 : isDigitChar c3 = true) (h4 : isDigitChar c4 = true) :
    pad4 (1000 * digitVal c1 + 100 * digitVal c2 + 10 * digitVal c3 + digitVal c4) =
      [c1, c2, c3, c4] := by
  have b1 := digitVal_lt h1
  have b2 := digitVal_lt h2
  have b3 := digitVal_lt h3
  have b4 := digitVal_lt h4
  unfold pad4
  have e1 : (1000 * digitVal c1 + 100 * digitVal c2 + 10 * digitVal c3 + digitVal c4) / 1000 =
      digitVal c1 := by omega
  have e2 : (1000 * digitVal c1 + 100 * digitVal c2 + 10 * digitVal c3 + digitVal c4) / 100 % 10 =
      digitVal c2 := by omega
  have e3 : (1000 * digitVal c1 + 100 * digitVal c2 + 10 * digitVal c3 + digitVal c4) / 10 % 10 =
      digitVal c3 := by omega
  have e4 : (1000 * digitVal c1 + 100 * digitVal c2 + 10 * digitVal c3 + digitVal c4) % 10 =
      digitVal c4 := by omega
  rw [e1, e2, e3, e4, digitChar_digitVal h1, digitChar_digitVal h2, digitChar_digitVal h3,
    digitChar_digitVal h4]

/-- C1: decoding a quoted timestamp string in the fixed valid pattern
through the Time Codec succeeds, and encoding the decoded value returns
exactly the original quoted string (encoding inverts decoding at second
precision). -/
theorem timeCodec_roundtrip (s : GoString) (hpat : isTimestampPattern s) :
    ∃ t : CustomTime, unmarshalJSON ('"' :: s ++ ['"']) = .ok t ∧
      marshalJSON t = '"' :: s ++ ['"'] := by
  obtain ⟨y1, y2, y3, y4, o1, o2, a1, a2, h1, h2, i1, i2, e1, e2, rfl,
    hy1, hy2, hy3, hy4, ho1, ho2, ha1, ha2, hh1, hh2, hi1, hi2, he1, he2,
    hmo1, hmo2, hda1, hda2, hhr, hmi, hse⟩ := hpat
  refine ⟨⟨1000 * digitVal y1 + 100 * digitVal y2 + 10 * digitVal y3 + digitVal y4,
    10 * digitVal o1 + digitVal o2, 10 * digitVal a1 + digitVal a2,
    10 * digitVal h1 + digitVal h2, 10 * digitVal i1 + digitVal i2,
    10 * digitVal e1 + digitVal e2⟩, ?_, ?_⟩
  · have hg4 : getnum4 [y1, y2, y3, y4, '-', o1, o2, '-', a1, a2, 'T', h1, h2, ':',
        i1, i2, ':', e1, e2] =
        some (1000 * digitVal y1 + 100 * digitVal y2 + 10 * digitVal y3 + digitVal y4,
          ['-', o1, o2, '-', a1, a2, 'T', h1, h2, ':', i1, i2, ':', e1, e2]) := by
      simp [getnum4, hy1, hy2, hy3, hy4]
    have hg2mo : getnum2 [o1, o2, '-', a1, a2, 'T', h1, h2, ':', i1, i2, ':', e1, e2] =
        some (10 * digitVal o1 + digitVal o2,
          ['-', a1, a2, 'T', h1, h2, ':', i1, i2, ':', e1, e2]) := by
      simp [getnum2, ho1, ho2]
    have hg2da : getnum2 [a1, a2, 'T', h1, h2, ':', i1, i2, ':', e1, e2] =
        some (10 * digitVal a1 + digitVal a2, ['T', h1, h2, ':', i1, i2, ':', e1, e2]) := by
      simp [getnum2, ha1, ha2]
    have hghr : getnumHour [h1, h2, ':', i1, i2, ':', e1, e2] =
        some (10 * digitVal h1 + digitVal h2, [':', i1, i2, ':', e1, e2]) := by
      simp [getnumHour, hh1, hh2]
    have hg2mi : getnum2 [i1, i2, ':', e1, e2] =
        some (10 * digitVal i1 + digitVal i2, [':', e1, e2]) := by
      simp [getnum2, hi1, hi2]
    have hg2se : getnum2 [e1, e2] = some (10 * digitVal e1 + digitVal e2, []) := by
      simp [getnum2, he1, he2]
    have nhr : ¬ (24 ≤ 10 * digitVal h1 + digitVal h2) := by omega
    have nmi : ¬ (60 ≤ 10 * digitVal i1 + digitVal i2) := by omega
    have nse : ¬ (60 ≤ 10 * digitVal e1 + digitVal e2) := by omega
    have nmo : ¬ (10 * digitVal o1 + digitVal o2 < 1 ∨ 12 < 10 * digitVal o1 + digitVal o2) := by
      omega
    have nda : ¬ (10 * digitVal a1 + digitVal a2 < 1 ∨
        daysIn (10 * digitVal o1 + digitVal o2)
          (1000 * digitVal y1 + 100 * digitVal y2 + 10 * digitVal y3 + digitVal y4) <
          10 * digitVal a1 + digitVal a2) := by omega
    have hparse : goTimeParse [y1, y2, y3, y4, '-', o1, o2, '-', a1, a2, 'T', h1, h2, ':',
        i1, i2, ':', e1, e2] =
        some ⟨1000 * digitVal y1 + 100 * digitVal y2 + 10 * digitVal y3 + digitVal y4,
          10 * digitVal o1 + digitVal o2, 10 * digitVal a1 + digitVal a2,
          10 * digitVal h1 + digitVal h2, 10 * digitVal i1 + digitVal i2,
          10 * digitVal e1 + digitVal e2⟩ := by
      simp [goTimeParse, hg4, hg2mo, hg2da, hghr, hg2mi, hg2se, expectChar, fracSecondOk,
        nhr, nmi, nse, nmo, nda]
      omega
    unfold unmarshalJSON
    have hlen : ('"' :: [y1, y2, y3, y4, '-', o1, o2, '-', a1, a2, 'T', h1, h2, ':',
        i1, i2, ':', e1, e2] ++ ['"']).length = 21 := by simp
    rw [if_neg (by omega)]
    rw [show stripEnds ('"' :: [y1, y2, y3, y4, '-', o1, o2, '-', a1, a2, 'T', h1, h2, ':',
      i1, i2, ':', e1, e2] ++ ['"']) =
      [y1, y2, y3, y4, '-', o1, o2, '-', a1, a2, 'T', h1, h2, ':', i1, i2, ':', e1, e2]
      from rfl]
    rw [hparse]
  · unfold marshalJSON goTimeFormat
    rw [show (⟨1000 * digitVal y1 + 100 * digitVal y2 + 10 * digitVal y3 + digitVal y4,
      10 * digitVal o1 + digitVal o2, 10 * digitVal a1 + digitVal a2,
      10 * digitVal h1 + digitVal h2, 10 * digitVal i1 + digitVal i2,
      10 * digitVal e1 + digitVal e2⟩ : CustomTime).year =
      1000 * digitVal y1 + 100 * digitVal y2 + 10 * digitVal y3 + digitVal y4 from rfl]
    rw [pad4_digits hy1 hy2 hy3 hy4, pad2_digits ho1 ho2, pad2_digits ha1 ha2,
      pad2_digits hh1 hh2, pad2_digits hi1 hi2, pad2_digits he1 he2]
    rfl

/-- Concrete instance of C1 at the spec's example timestamp. -/
theorem timeCodec_roundtrip_witness :
    isTimestampPattern (str ("2024-01-15T08:30:00")) ∧
      (∃ t : CustomTime,
        unmarshalJSON ('"' :: str ("2024-01-15T08:30:00") ++ ['"']) = .ok t ∧
        marshalJSON t = '"' :: str ("2024-01-15T08:30:00") ++ ['"']) :=
  have hpat : isTimestampPattern (str ("2024-01-15T08:30:00")) :=
    ⟨'2', '0', '2', '4', '0', '1', '1', '5', '0', '8', '3', '0', '0', '0', rfl, by decide⟩
  ⟨hpat, timeCodec_roundtrip _ hpat⟩
